import Mathlib

/-!
Verification development for the komu manga inference service
(src/inference/src/main.py).  The service's own logic — tight bounding
boxes derived from per-line polygons, the per-line crop/rotate/OCR loop,
response assembly, debug-image composition, and the global
model-initialization guard — is embedded as executable Lean definitions.
External library calls (the text detector, `get_transformed_region`,
`cv2.rotate`, colour-space conversion, manga-ocr, `cv2.imwrite`,
`draw.textbbox`) are abstracted as an environment of function parameters;
pixel coordinates are rationals and Python's `int(...)` is truncation
toward zero.
-/

namespace Komu

/-- A detected text block as produced by the comic-text-detector:
per-line polygons (`lines` / `lines_array()`), the detector's coarse
block-level box `xyxy`, the orientation flag `vertical` and the estimated
`font_size` (None when the detector gives none). -/
structure TextBlock where
  lines : List (List (ℚ × ℚ))
  xyxy : ℚ × ℚ × ℚ × ℚ
  vertical : Bool
  font_size : Option ℚ
deriving Repr, DecidableEq

/-- Python `int(x)` on a real-valued coordinate: truncation toward zero. -/
def pyInt (q : ℚ) : Int :=
  if 0 ≤ q then ⌊q⌋ else ⌈q⌉

/-- Embedding of `np.min` over a 1-D array, with 0 as a junk value on the empty list
(the source never reaches that case). -/
def npMin (xs : List ℚ) : ℚ :=
  match xs with
  | [] => 0
  | x :: rest => rest.foldl min x

/-- Embedding of `np.max` over a 1-D array, with 0 as a junk value on the empty list. -/
def npMax (xs : List ℚ) : ℚ :=
  match xs with
  | [] => 0
  | x :: rest => rest.foldl max x

/-- Embedding of `calculate_tight_bbox_from_lines` (main.py:196-225): min/max of the
coordinates of all points of all per-line polygons, falling back to the
detector's `blk.xyxy` when there are no lines or no points. -/
def calculate_tight_bbox_from_lines (blk : TextBlock) : ℚ × ℚ × ℚ × ℚ :=
  let lines := blk.lines
  if lines.length = 0 then blk.xyxy
  else
    let all_points := lines.flatten
    if all_points.length = 0 then blk.xyxy
    else
      (npMin (all_points.map Prod.fst), npMin (all_points.map Prod.snd),
       npMax (all_points.map Prod.fst), npMax (all_points.map Prod.snd))

section MinMaxLemmas

variable {α : Type} [LinearOrder α]

lemma foldl_min_le_init (xs : List α) (a : α) : xs.foldl min a ≤ a := by
  induction xs generalizing a with
  | nil => exact le_refl a
  | cons x rest ih =>
    calc rest.foldl min (min a x) ≤ min a x := ih (min a x)
    _ ≤ a := min_le_left a x

lemma foldl_min_le_mem : ∀ (xs : List α) (a x : α), x ∈ xs → xs.foldl min a ≤ x
  | [], _, _, hx => absurd hx (List.not_mem_nil _)
  | y :: rest, a, x, hx => by
    rcases List.mem_cons.mp hx with h | h
    · subst h
      calc (x :: rest).foldl min a = rest.foldl min (min a x) := rfl
      _ ≤ min a x := foldl_min_le_init rest (min a x)
      _ ≤ x := min_le_right a x
    · exact foldl_min_le_mem rest (min a y) x h

lemma foldl_min_mem : ∀ (xs : List α) (a : α),
    xs.foldl min a = a ∨ xs.foldl min a ∈ xs
  | [], _ => Or.inl rfl
  | x :: rest, a => by
    rcases foldl_min_mem rest (min a x) with h | h
    · by_cases hax : a ≤ x
      · left
        simp only [List.foldl_cons, h]
        exact min_eq_left hax
      · right
        simp only [List.foldl_cons, h]
        have hx : min a x = x := min_eq_right (le_of_not_le hax)
        rw [hx]
        exact List.mem_cons_self x rest
    · right
      simp only [List.foldl_cons]
      exact List.mem_cons_of_mem x h

lemma init_le_foldl_max (xs : List α) (a : α) : a ≤ xs.foldl max a := by
  induction xs generalizing a with
  | nil => exact le_refl a
  | cons x rest ih =>
    calc a ≤ max a x := le_max_left a x
    _ ≤ rest.foldl max (max a x) := ih (max a x)

lemma mem_le_foldl_max : ∀ (xs : List α) (a x : α), x ∈ xs → x ≤ xs.foldl max a
  | [], _, _, hx => absurd hx (List.not_mem_nil _)
  | y :: rest, a, x, hx => by
    rcases List.mem_cons.mp hx with h | h
    · subst h
      calc x ≤ max a x := le_max_right a x
      _ ≤ rest.foldl max (max a x) := init_le_foldl_max rest (max a x)
      _ = (x :: rest).foldl max a := rfl
    · exact mem_le_foldl_max rest (max a y) x h

lemma foldl_max_mem : ∀ (xs : List α) (a : α),
    xs.foldl max a = a ∨ xs.foldl max a ∈ xs
  | [], _ => Or.inl rfl
  | x :: rest, a => by
    rcases foldl_max_mem rest (max a x) with h | h
    · by_cases hax : x ≤ a
      · left
        simp only [List.foldl_cons, h]
        exact max_eq_left hax
      · right
        simp only [List.foldl_cons, h]
        have hx : max a x = x := max_eq_right (le_of_not_le hax)
        rw [hx]
        exact List.mem_cons_self x rest
    · right
      simp only [List.foldl_cons]
      exact List.mem_cons_of_mem x h

end MinMaxLemmas

lemma npMin_le (xs : List ℚ) (x : ℚ) (hx : x ∈ xs) : npMin xs ≤ x := by
  match xs with
  | [] => cases hx
  | y :: rest =>
    rcases List.mem_cons.mp hx with h | h
    · subst h; exact foldl_min_le_init rest x
    · exact foldl_min_le_mem rest y x h

lemma npMin_mem (xs : List ℚ) (hxs : xs ≠ []) : npMin xs ∈ xs := by
  match xs with
  | [] => exact absurd rfl hxs
  | y :: rest =>
    rcases foldl_min_mem rest y with h | h
    · rw [npMin, h]; exact List.mem_cons_self y rest
    · exact List.mem_cons_of_mem y h

lemma le_npMax (xs : List ℚ) (x : ℚ) (hx : x ∈ xs) : x ≤ npMax xs := by
  match xs with
  | [] => cases hx
  | y :: rest =>
    rcases List.mem_cons.mp hx with h | h
    · subst h; exact init_le_foldl_max rest x
    · exact mem_le_foldl_max rest y x h

lemma npMax_mem (xs : List ℚ) (hxs : xs ≠ []) : npMax xs ∈ xs := by
  match xs with
  | [] => exact absurd rfl hxs
  | y :: rest =>
    rcases foldl_max_mem rest y with h | h
    · rw [npMax, h]; exact List.mem_cons_self y rest
    · exact List.mem_cons_of_mem y h

lemma pyInt_mono {a b : ℚ} (h : a ≤ b) : pyInt a ≤ pyInt b := by
  unfold pyInt
  by_cases ha : 0 ≤ a
  · have hb : 0 ≤ b := le_trans ha h
    simp only [ha, hb, if_true]
    exact Int.floor_le_floor h
  · by_cases hb : 0 ≤ b
    · simp only [ha, hb, if_true, if_false]
      have h1 : (⌈a⌉ : ℤ) ≤ 0 := by
        apply Int.ceil_le.mpr
        push_cast
        exact le_of_lt (lt_of_not_le ha)
      have h2 : (0 : ℤ) ≤ ⌊b⌋ := by
        apply Int.le_floor.mpr
        push_cast
        exact hb
      exact le_trans h1 h2
    · simp only [ha, hb, if_false]
      exact Int.ceil_le_ceil h

/-- Python truthiness-aware `blk.font_size or 20` (main.py:310): `None`
and `0.0` are falsy, so both fall back to 20. -/
def fontSizeOr20 (blk : TextBlock) : ℚ :=
  match blk.font_size with
  | none => 20
  | some f => if f = 0 then 20 else f

/-- The external library calls the service orchestrates, abstracted over
an image type: the text detector, mokuro-style line cropping
(`blk.get_transformed_region`), `cv2.rotate(..., ROTATE_90_CLOCKWISE)`,
the BGR-to-RGB/PIL conversion, manga-ocr, `draw.textbbox`, `cv2.imwrite`
and the saved-file existence check.  `genExcept` is an exception raised
inside `generate_debug_image_with_text`'s try-block, if any. -/
structure Env (Img : Type) where
  detect : Img → List TextBlock
  get_transformed_region : Img → Nat → ℚ → Except String Img
  rotate90cw : Img → Img
  toPil : Img → Img
  ocr : Img → Except String String
  textbbox : (Int × Int) → String → Int × Int × Int × Int
  imwrite : String → Bool
  savedExists : String → Bool
  genExcept : Option String

/-- The debug note appended when cropping or OCR of one line raises
(main.py:324). -/
def lineFailNote (blk_idx line_idx : Nat) (e : String) : String :=
  "Failed to extract text from line " ++ toString line_idx ++ " in block "
    ++ toString (blk_idx + 1) ++ ": " ++ e

/-- One iteration of the per-line loop of `run_ocr_detection`
(main.py:307-325): crop the line region, rotate 90 degrees clockwise when
the block is vertical, convert to PIL and run OCR; an exception from
cropping or OCR yields the empty string plus a debug note. -/
def extract_line {Img : Type} (env : Env Img) (img : Img) (blk : TextBlock)
    (blk_idx line_idx : Nat) : String × Option String :=
  match env.get_transformed_region img line_idx (fontSizeOr20 blk) with
  | .error e => ("", some (lineFailNote blk_idx line_idx e))
  | .ok crop0 =>
    let line_crop := if blk.vertical then env.rotate90cw crop0 else crop0
    let line_pil := env.toPil line_crop
    match env.ocr line_pil with
    | .ok t => (t, none)
    | .error e => ("", some (lineFailNote blk_idx line_idx e))

/-- The per-line loop over `range(len(blk.lines))`, accumulating the
extracted line texts in order together with any failure notes. -/
def process_lines {Img : Type} (env : Env Img) (img : Img) (blk : TextBlock)
    (blk_idx : Nat) : List Nat → List String × List String
  | [] => ([], [])
  | i :: rest =>
    let r := extract_line env img blk blk_idx i
    let tail := process_lines env img blk blk_idx rest
    (r.1 :: tail.1, r.2.toList ++ tail.2)

/-- One entry of the response's `textBlocks` array (main.py:331-341). -/
structure ResultBlk where
  bbox : List Int
  width : Int
  height : Int
  vertical : Bool
  font_size : Option ℚ
  lines : Nat
  confidence : ℚ
  text : String
  text_lines : List String
deriving Repr, DecidableEq

/-- Python `s[:n] + "..." if len(s) > n else s` (with `s[:n] = s` when
`len(s) <= n`, this single form also covers the
`f"{s[:n]}{...}"`-style truncation of the block summary). -/
def pyTruncate (s : String) (n : Nat) : String :=
  if s.length > n then s.take n ++ "..." else s

/-- Python `repr` of an optional float, as interpolated into the debug
summary line. -/
def pyOptQ (q : Option ℚ) : String :=
  match q with
  | none => "None"
  | some v => toString v

/-- Python `str` of a bool. -/
def pyBool (b : Bool) : String :=
  if b then "True" else "False"

/-- The per-block debug summary line (main.py:344). -/
def blockSummary (blk_idx : Nat) (x1 y1 x2 y2 : Int) (blk : TextBlock)
    (full_text : String) : String :=
  "Block " ++ toString (blk_idx + 1) ++ ": bbox=[" ++ toString x1 ++ ", "
    ++ toString y1 ++ ", " ++ toString x2 ++ ", " ++ toString y2
    ++ "] vertical=" ++ pyBool blk.vertical
    ++ " font_size=" ++ pyOptQ blk.font_size
    ++ " lines=" ++ toString blk.lines.length
    ++ " text=\x27" ++ pyTruncate full_text 50 ++ "\x27"

/-- The body of `run_ocr_detection`'s block loop (main.py:300-344): the
tight bbox truncated to ints, the per-line OCR loop, the joined text and
the result dictionary, together with the debug notes this block appends. -/
def process_block {Img : Type} (env : Env Img) (img : Img) (blk_idx : Nat)
    (blk : TextBlock) : ResultBlk × List String :=
  let tb := calculate_tight_bbox_from_lines blk
  let x1 := pyInt tb.1
  let y1 := pyInt tb.2.1
  let x2 := pyInt tb.2.2.1
  let y2 := pyInt tb.2.2.2
  let pl := process_lines env img blk blk_idx (List.range blk.lines.length)
  let full_text := String.join pl.1
  ({ bbox := [x1, y1, x2, y2]
     width := x2 - x1
     height := y2 - y1
     vertical := blk.vertical
     font_size := blk.font_size
     lines := blk.lines.length
     confidence := 1
     text := full_text
     text_lines := pl.1 },
   pl.2 ++ [blockSummary blk_idx x1 y1 x2 y2 blk full_text])

/-- The block loop over `enumerate(blk_list)`, accumulating result
entries in detector order and the debug notes in order. -/
def process_blocks {Img : Type} (env : Env Img) (img : Img) :
    Nat → List TextBlock → List ResultBlk × List String
  | _, [] => ([], [])
  | idx, blk :: rest =>
    let r := process_block env img idx blk
    let rs := process_blocks env img (idx + 1) rest
    (r.1 :: rs.1, r.2 ++ rs.2)

/-- A drawing primitive of the debug-image composition: an outlined
rectangle, a filled rectangle (the RGBA text background), rendered text,
or a polygon outline (`cv2.polylines`). -/
inductive DrawOp where
  | rect (x1 y1 x2 y2 : Int) (outline : Nat × Nat × Nat) (width : Nat)
  | fillRect (x1 y1 x2 y2 : Int) (fill : Nat × Nat × Nat × Nat)
  | drawText (x y : Int) (s : String) (fill : Nat × Nat × Nat)
  | polyline (pts : List (Int × Int)) (closed : Bool)
      (color : Nat × Nat × Nat) (width : Nat)
deriving Repr, DecidableEq

/-- An image buffer: an abstract base pixel array, the image's pixel
dimensions (`img.shape[:2]`), and the drawing operations applied on top
of it.  Drawing appends operations; the base is never modified. -/
structure Canvas (Img : Type) where
  base : Img
  width : Nat
  height : Nat
  ops : List DrawOp

/-- A `pathlib.Path`, decomposed as the source decomposes it
(`parent`, `stem`, `suffix`). -/
structure PathParts where
  parent : String
  stem : String
  suffix : String
deriving Repr, DecidableEq

/-- Embedding of `original_path.parent / "stem_debug+suffix"` (main.py:477-478). -/
def debugPathStr (p : PathParts) : String :=
  p.parent ++ "/" ++ p.stem ++ "_debug" ++ p.suffix

/-- The drawing operations of `generate_debug_image_with_text`
(main.py:434-471), one block at a time: the green bbox rectangle, the
block-number label, the white text background and red recognized text,
and the orange per-line polygon outlines with coordinates truncated to
int32. -/
def block_ops {Img : Type} (env : Env Img) (i : Nat) (blk : TextBlock)
    (tr : ResultBlk) : List DrawOp :=
  let tb := calculate_tight_bbox_from_lines blk
  let x1 := pyInt tb.1
  let y1 := pyInt tb.2.1
  let x2 := pyInt tb.2.2.1
  let y2 := pyInt tb.2.2.2
  [DrawOp.rect x1 y1 x2 y2 (0, 255, 0) 3,
   DrawOp.drawText x1 (max (y1 - 25) 5) (toString (i + 1)) (0, 255, 0)]
  ++ (if tr.text ≠ "" then
        let text_y := if y1 > 50 then y1 - 50 else y2 + 10
        let display_text := pyTruncate tr.text 30
        let bb := env.textbbox (x1, text_y) display_text
        [DrawOp.fillRect (bb.1 - 2) (bb.2.1 - 2) (bb.2.2.1 + 2) (bb.2.2.2 + 2)
           (255, 255, 255, 200),
         DrawOp.drawText x1 text_y display_text (255, 0, 0)]
      else [])
  ++ blk.lines.map (fun line =>
       DrawOp.polyline (line.map (fun p => (pyInt p.1, pyInt p.2))) true
         (255, 165, 0) 2)

/-- The drawing loop over `enumerate(zip(blk_list, text_results))`. -/
def all_block_ops {Img : Type} (env : Env Img) :
    Nat → List (TextBlock × ResultBlk) → List DrawOp
  | _, [] => []
  | i, p :: rest => block_ops env i p.1 p.2 ++ all_block_ops env (i + 1) rest

/-- Embedding of `generate_debug_image_with_text` (main.py:376-501): annotate a copy
of the input canvas with every block's overlays, write it to
`<parent>/<stem>_debug<suffix>`, and return the saved path (with the
annotated copy and the updated debug notes).  Any exception inside the
try-block, a failed `cv2.imwrite` or a missing saved file yields `none`
and a failure note instead. -/
def generate_debug_image_with_text {Img : Type} (env : Env Img)
    (canvas : Canvas Img) (blk_list : List TextBlock)
    (text_results : List ResultBlk) (origPath : PathParts)
    (debug_info : List String) :
    Option String × Canvas Img × List String :=
  match env.genExcept with
  | some e => (none, canvas, debug_info ++ ["Failed to generate debug image: " ++ e])
  | none =>
    let annotated : Canvas Img :=
      { canvas with ops := canvas.ops ++ all_block_ops env 0 (blk_list.zip text_results) }
    let debug_path := debugPathStr origPath
    if env.imwrite debug_path && env.savedExists debug_path then
      (some debug_path, annotated,
       debug_info ++ ["Debug image with text saved to: " ++ debug_path])
    else
      (none, annotated,
       debug_info ++ ["Failed to save debug image to: " ++ debug_path])

/-- The JSON body of a successful `/ocr/detect` response
(main.py:360-370). -/
structure Response where
  success : Bool
  textBlocks : List ResultBlk
  imageSize : Nat × Nat
  debug : List String
  debugImagePath : Option String

/-- Embedding of `run_ocr_detection` (main.py:268-374), from the point where the
image is loaded and the models are initialized: run the detector, process
every block, optionally generate the debug image (guarded by the
`GENERATE_DEBUG_IMAGES` flag), and assemble the response.
`debugImagePath` is set only when the generated path is truthy. -/
def run_ocr_detection {Img : Type} (generateDebugImages : Bool)
    (env : Env Img) (canvas : Canvas Img)
    (debug_image_base_path : PathParts) : Response :=
  let im_w := canvas.width
  let im_h := canvas.height
  let blk_list := env.detect canvas.base
  let debug0 := ["Found " ++ toString blk_list.length ++ " text blocks"]
  let pr := process_blocks env canvas.base 0 blk_list
  let results := pr.1
  let debug1 := debug0 ++ pr.2
    ++ ["Final results: " ++ toString results.length ++ " text blocks with extracted text"]
  let gen :=
    if generateDebugImages then
      let g := generate_debug_image_with_text env canvas blk_list results
        debug_image_base_path debug1
      (g.1, g.2.2)
    else (none, debug1)
  { success := true
    textBlocks := results
    imageSize := (im_w, im_h)
    debug := gen.2
    debugImagePath :=
      match gen.1 with
      | some p => if p = "" then none else some p
      | none => none }

/-- The two global model slots (main.py:36-37). -/
structure Models (D O : Type) where
  text_detector : Option D
  manga_ocr : Option O
deriving Repr, DecidableEq

/-- Embedding of `initialize_models` (main.py:39-77): when at least one slot is unset,
load the text detector and then the OCR model, assigning each global as
it is constructed; a load failure propagates as an exception, leaving any
already-assigned slot set.  When both slots are set, return immediately.
The second component is the raised exception, if any. -/
def initialize_models {D O : Type} (loadDetector : Except String D)
    (loadOcr : Except String O) (s : Models D O) : Models D O × Option String :=
  if s.text_detector.isNone || s.manga_ocr.isNone then
    match loadDetector with
    | .error e => (s, some e)
    | .ok d =>
      let s1 : Models D O := { s with text_detector := some d }
      match loadOcr with
      | .error e => (s1, some e)
      | .ok o => ({ s1 with manga_ocr := some o }, none)
  else (s, none)

lemma process_lines_fst {Img : Type} (env : Env Img) (img : Img)
    (blk : TextBlock) (bidx : Nat) :
    ∀ idxs : List Nat, (process_lines env img blk bidx idxs).1 =
      idxs.map (fun j => (extract_line env img blk bidx j).1)
  | [] => rfl
  | i :: rest => by
    simp only [process_lines, List.map_cons]
    rw [process_lines_fst env img blk bidx rest]

lemma process_lines_note_mem {Img : Type} (env : Env Img) (img : Img)
    (blk : TextBlock) (bidx : Nat) :
    ∀ (idxs : List Nat) (j : Nat) (note : String), j ∈ idxs →
      (extract_line env img blk bidx j).2 = some note →
      note ∈ (process_lines env img blk bidx idxs).2
  | [], _, _, hj, _ => absurd hj (List.not_mem_nil _)
  | i :: rest, j, note, hj, hnote => by
    simp only [process_lines, List.mem_append]
    rcases List.mem_cons.mp hj with h | h
    · subst h
      left
      rw [hnote]
      exact List.mem_cons_self note []
    · right
      exact process_lines_note_mem env img blk bidx rest j note h hnote

lemma process_blocks_length {Img : Type} (env : Env Img) (img : Img) :
    ∀ (k : Nat) (l : List TextBlock),
      (process_blocks env img k l).1.length = l.length
  | _, [] => rfl
  | k, _ :: rest => by
    simp only [process_blocks, List.length_cons]
    rw [process_blocks_length env img (k + 1) rest]

lemma process_blocks_get {Img : Type} (env : Env Img) (img : Img) :
    ∀ (k : Nat) (l : List TextBlock) (i : Nat) (blk : TextBlock),
      l.get? i = some blk →
      (process_blocks env img k l).1.get? i =
        some (process_block env img (k + i) blk).1
  | _, [], i, _, h => by simp at h
  | k, b :: rest, 0, blk, h => by
    simp only [List.get?] at h
    cases h
    rfl
  | k, b :: rest, i + 1, blk, h => by
    simp only [List.get?] at h
    have := process_blocks_get env img (k + 1) rest i blk h
    simpa [process_blocks, Nat.add_assoc, Nat.add_comm 1 i] using this

lemma process_blocks_note_mem {Img : Type} (env : Env Img) (img : Img) :
    ∀ (k : Nat) (l : List TextBlock) (i : Nat) (blk : TextBlock) (x : String),
      l.get? i = some blk →
      x ∈ (process_block env img (k + i) blk).2 →
      x ∈ (process_blocks env img k l).2
  | _, [], i, _, _, h, _ => by simp at h
  | k, b :: rest, 0, blk, x, h, hx => by
    simp only [List.get?] at h
    cases h
    simp only [process_blocks, List.mem_append]
    exact Or.inl hx
  | k, b :: rest, i + 1, blk, x, h, hx => by
    simp only [List.get?] at h
    simp only [process_blocks, List.mem_append]
    right
    have hx2 : x ∈ (process_block env img (k + 1 + i) blk).2 := by
      have harith : k + 1 + i = k + (i + 1) := by omega
      rw [harith]
      exact hx
    exact process_blocks_note_mem env img (k + 1) rest i blk x h hx2

lemma gen_preserves_debug {Img : Type} (env : Env Img) (canvas : Canvas Img)
    (bl : List TextBlock) (trs : List ResultBlk) (pp : PathParts)
    (d : List String) (x : String) (hx : x ∈ d) :
    x ∈ (generate_debug_image_with_text env canvas bl trs pp d).2.2 := by
  unfold generate_debug_image_with_text
  cases env.genExcept with
  | some e => simpa using Or.inl hx
  | none =>
    by_cases h : env.imwrite (debugPathStr pp) && env.savedExists (debugPathStr pp)
    · simpa [h] using Or.inl hx
    · simpa [h] using Or.inl hx

lemma gen_fst_eq {Img : Type} (env : Env Img) (canvas : Canvas Img)
    (bl : List TextBlock) (trs : List ResultBlk) (pp : PathParts)
    (d : List String) :
    (generate_debug_image_with_text env canvas bl trs pp d).1 =
      match env.genExcept with
      | some _ => none
      | none =>
        if env.imwrite (debugPathStr pp) && env.savedExists (debugPathStr pp)
        then some (debugPathStr pp) else none := by
  unfold generate_debug_image_with_text
  cases env.genExcept with
  | some e => rfl
  | none =>
    by_cases h : env.imwrite (debugPathStr pp) && env.savedExists (debugPathStr pp)
    · simp [h]
    · simp [h]

lemma run_textBlocks_eq {Img : Type} (g : Bool) (env : Env Img)
    (canvas : Canvas Img) (pp : PathParts) :
    (run_ocr_detection g env canvas pp).textBlocks =
      (process_blocks env canvas.base 0 (env.detect canvas.base)).1 := by
  cases g <;> rfl

lemma run_success_eq {Img : Type} (g : Bool) (env : Env Img)
    (canvas : Canvas Img) (pp : PathParts) :
    (run_ocr_detection g env canvas pp).success = true := by
  cases g <;> rfl

lemma run_imageSize_eq {Img : Type} (g : Bool) (env : Env Img)
    (canvas : Canvas Img) (pp : PathParts) :
    (run_ocr_detection g env canvas pp).imageSize = (canvas.width, canvas.height) := by
  cases g <;> rfl

lemma debugPathStr_ne_empty (pp : PathParts) : debugPathStr pp ≠ "" := by
  intro h
  have h2 := congrArg String.length h
  simp only [debugPathStr, String.length_append] at h2
  have hs : String.length "/" = 1 := rfl
  have hd : String.length "_debug" = 6 := rfl
  have he : String.length "" = 0 := rfl
  rw [hs, hd, he] at h2
  omega

lemma tight_bbox_eq_minmax (blk : TextBlock) (h : blk.lines.flatten ≠ []) :
    calculate_tight_bbox_from_lines blk =
      (npMin (blk.lines.flatten.map Prod.fst),
       npMin (blk.lines.flatten.map Prod.snd),
       npMax (blk.lines.flatten.map Prod.fst),
       npMax (blk.lines.flatten.map Prod.snd)) := by
  unfold calculate_tight_bbox_from_lines
  have hl : ¬ blk.lines.length = 0 := by
    intro h0
    apply h
    rw [List.length_eq_zero.mp h0]
    rfl
  have hp : ¬ blk.lines.flatten.length = 0 := fun h0 => h (List.length_eq_zero.mp h0)
  simp only [if_neg hl, if_neg hp]

/-- C1: for a detected block whose line polygons contain at least one
point, `calculate_tight_bbox_from_lines` returns the coordinatewise
minima and maxima over all points of all per-line polygons (the
attained bounds of the minimal enclosing axis-aligned rectangle), and
`run_ocr_detection` uses this rectangle — truncated to ints — as the
block's `bbox` instead of the detector's `blk.xyxy`. -/
theorem C1_tight_bbox_minmax_used {Img : Type} (g : Bool) (env : Env Img)
    (canvas : Canvas Img) (pp : PathParts) (i : Nat) (blk : TextBlock)
    (a b c d : ℚ)
    (hblk : (env.detect canvas.base).get? i = some blk)
    (hpts : blk.lines.flatten ≠ [])
    (htb : calculate_tight_bbox_from_lines blk = (a, b, c, d)) :
    (∀ p ∈ blk.lines.flatten, a ≤ p.1 ∧ b ≤ p.2 ∧ p.1 ≤ c ∧ p.2 ≤ d) ∧
    a ∈ blk.lines.flatten.map Prod.fst ∧
    b ∈ blk.lines.flatten.map Prod.snd ∧
    c ∈ blk.lines.flatten.map Prod.fst ∧
    d ∈ blk.lines.flatten.map Prod.snd ∧
    ∃ rb, (run_ocr_detection g env canvas pp).textBlocks.get? i = some rb ∧
      rb.bbox = [pyInt a, pyInt b, pyInt c, pyInt d] := by
  have he := tight_bbox_eq_minmax blk hpts
  rw [htb] at he
  simp only [Prod.mk.injEq] at he
  obtain ⟨ha, hb, hc, hd⟩ := he
  have hmapf : blk.lines.flatten.map Prod.fst ≠ [] := by
    simpa using hpts
  have hmaps : blk.lines.flatten.map Prod.snd ≠ [] := by
    simpa using hpts
  refine ⟨?_, ?_, ?_, ?_, ?_, ?_⟩
  · intro p hp
    refine ⟨?_, ?_, ?_, ?_⟩
    · rw [ha]
      exact npMin_le _ _ (List.mem_map_of_mem Prod.fst hp)
    · rw [hb]
      exact npMin_le _ _ (List.mem_map_of_mem Prod.snd hp)
    · rw [hc]
      exact le_npMax _ _ (List.mem_map_of_mem Prod.fst hp)
    · rw [hd]
      exact le_npMax _ _ (List.mem_map_of_mem Prod.snd hp)
  · rw [ha]; exact npMin_mem _ hmapf
  · rw [hb]; exact npMin_mem _ hmaps
  · rw [hc]; exact npMax_mem _ hmapf
  · rw [hd]; exact npMax_mem _ hmaps
  · rw [run_textBlocks_eq]
    refine ⟨(process_block env canvas.base (0 + i) blk).1, ?_, ?_⟩
    · exact process_blocks_get env canvas.base 0 (env.detect canvas.base) i blk hblk
    · simp [process_block, htb, Nat.zero_add]

/-- C2: for every detected block, the per-line OCR loop visits the lines
in line-index order, `text_lines` is the list of per-line OCR outputs in
that order, `text` is their concatenation with no separator, and `lines`
is the block's line count. -/
theorem C2_line_loop_order {Img : Type} (g : Bool) (env : Env Img)
    (canvas : Canvas Img) (pp : PathParts) (i : Nat) (blk : TextBlock)
    (hblk : (env.detect canvas.base).get? i = some blk) :
    ∃ rb, (run_ocr_detection g env canvas pp).textBlocks.get? i = some rb ∧
      rb.text_lines = (List.range blk.lines.length).map
        (fun j => (extract_line env canvas.base blk i j).1) ∧
      rb.text = String.join rb.text_lines ∧
      rb.lines = blk.lines.length := by
  rw [run_textBlocks_eq]
  refine ⟨(process_block env canvas.base (0 + i) blk).1,
    process_blocks_get env canvas.base 0 (env.detect canvas.base) i blk hblk,
    ?_, ?_, ?_⟩
  · simp only [process_block, Nat.zero_add]
    exact process_lines_fst env canvas.base blk i (List.range blk.lines.length)
  · rfl
  · rfl

/-- C8: a block with no line polygons, or whose line polygons contain no
points, makes `calculate_tight_bbox_from_lines` fall back to the
detector's coarse `blk.xyxy`. -/
theorem C8_bbox_fallback (blk : TextBlock)
    (h : blk.lines = [] ∨ blk.lines.flatten = []) :
    calculate_tight_bbox_from_lines blk = blk.xyxy := by
  have hf : blk.lines.flatten = [] := by
    rcases h with h | h
    · rw [h]; rfl
    · exact h
  unfold calculate_tight_bbox_from_lines
  by_cases hl : blk.lines.length = 0
  · simp [hl]
  · simp [hl, hf]

/-- C10: every returned text block has `width = bbox[2] - bbox[0]`,
`height = bbox[3] - bbox[1]`, both non-negative when the bbox is derived
from line polygons, and `confidence` is exactly 1.0 regardless of the
detector's output. -/
theorem C10_width_height_confidence {Img : Type} (g : Bool) (env : Env Img)
    (canvas : Canvas Img) (pp : PathParts) (i : Nat) (blk : TextBlock)
    (hblk : (env.detect canvas.base).get? i = some blk) :
    ∃ rb x1 y1 x2 y2,
      (run_ocr_detection g env canvas pp).textBlocks.get? i = some rb ∧
      rb.bbox = [x1, y1, x2, y2] ∧
      rb.width = x2 - x1 ∧
      rb.height = y2 - y1 ∧
      rb.confidence = 1 ∧
      (blk.lines.flatten ≠ [] → 0 ≤ rb.width ∧ 0 ≤ rb.height) := by
  rw [run_textBlocks_eq]
  set tb := calculate_tight_bbox_from_lines blk with htb
  refine ⟨(process_block env canvas.base (0 + i) blk).1,
    pyInt tb.1, pyInt tb.2.1, pyInt tb.2.2.1, pyInt tb.2.2.2,
    process_blocks_get env canvas.base 0 (env.detect canvas.base) i blk hblk,
    ?_, ?_, ?_, ?_, ?_⟩
  · simp [process_block]
  · simp [process_block]
  · simp [process_block]
  · rfl
  · intro hpts
    have he := tight_bbox_eq_minmax blk hpts
    have hmapf : blk.lines.flatten.map Prod.fst ≠ [] := by simpa using hpts
    have hmaps : blk.lines.flatten.map Prod.snd ≠ [] := by simpa using hpts
    have hx : tb.1 ≤ tb.2.2.1 := by
      rw [htb, he]
      exact npMin_le _ _ (npMax_mem _ hmapf)
    have hy : tb.2.1 ≤ tb.2.2.2 := by
      rw [htb, he]
      exact npMin_le _ _ (npMax_mem _ hmaps)
    constructor
    · have hw : (process_block env canvas.base (0 + i) blk).1.width =
          pyInt tb.2.2.1 - pyInt tb.1 := by simp [process_block]
      rw [hw]
      exact sub_nonneg.mpr (pyInt_mono hx)
    · have hh : (process_block env canvas.base (0 + i) blk).1.height =
          pyInt tb.2.2.2 - pyInt tb.2.1 := by simp [process_block]
      rw [hh]
      exact sub_nonneg.mpr (pyInt_mono hy)

/-- C3: within the per-line loop, a line of a vertical block has its crop
rotated 90 degrees clockwise (and converted to PIL) before being passed
to the OCR model, while a line of a horizontal block is passed to OCR
without rotation. -/
theorem C3_vertical_rotation {Img : Type} (env : Env Img) (img : Img)
    (blk : TextBlock) (blk_idx line_idx : Nat) (c : Img)
    (hcrop : env.get_transformed_region img line_idx (fontSizeOr20 blk) = .ok c) :
    (blk.vertical = true →
      extract_line env img blk blk_idx line_idx =
        match env.ocr (env.toPil (env.rotate90cw c)) with
        | .ok t => (t, none)
        | .error e => ("", some (lineFailNote blk_idx line_idx e))) ∧
    (blk.vertical = false →
      extract_line env img blk blk_idx line_idx =
        match env.ocr (env.toPil c) with
        | .ok t => (t, none)
        | .error e => ("", some (lineFailNote blk_idx line_idx e))) := by
  constructor <;> intro hv <;> simp [extract_line, hcrop, hv]

/-- C4: a successful /ocr/detect response has `success = true`, carries
the input image's width and height in `imageSize`, and contains exactly
one `textBlocks` entry per detected block in the detector's order, each
carrying the block's (tight) bounding box, the boolean `vertical`
orientation, the estimated `font_size` (None when the detector gives
none), the line count and the transcribed text. -/
theorem C4_response_shape {Img : Type} (g : Bool) (env : Env Img)
    (canvas : Canvas Img) (pp : PathParts) :
    (run_ocr_detection g env canvas pp).success = true ∧
    (run_ocr_detection g env canvas pp).imageSize = (canvas.width, canvas.height) ∧
    (run_ocr_detection g env canvas pp).textBlocks.length = (env.detect canvas.base).length ∧
    ∀ i blk, (env.detect canvas.base).get? i = some blk →
      ∃ rb, (run_ocr_detection g env canvas pp).textBlocks.get? i = some rb ∧
        rb.bbox = [pyInt (calculate_tight_bbox_from_lines blk).1,
                   pyInt (calculate_tight_bbox_from_lines blk).2.1,
                   pyInt (calculate_tight_bbox_from_lines blk).2.2.1,
                   pyInt (calculate_tight_bbox_from_lines blk).2.2.2] ∧
        rb.vertical = blk.vertical ∧
        rb.font_size = blk.font_size ∧
        rb.lines = blk.lines.length ∧
        rb.text = String.join rb.text_lines := by
  refine ⟨run_success_eq g env canvas pp, run_imageSize_eq g env canvas pp, ?_, ?_⟩
  · rw [run_textBlocks_eq]
    exact process_blocks_length env canvas.base 0 (env.detect canvas.base)
  · intro i blk hblk
    rw [run_textBlocks_eq]
    refine ⟨(process_block env canvas.base (0 + i) blk).1,
      process_blocks_get env canvas.base 0 (env.detect canvas.base) i blk hblk,
      ?_, rfl, rfl, rfl, rfl⟩
    simp [process_block]

lemma run_debugImagePath_eq {Img : Type} (g : Bool) (env : Env Img)
    (canvas : Canvas Img) (pp : PathParts) :
    (run_ocr_detection g env canvas pp).debugImagePath =
      if g && env.genExcept.isNone && env.imwrite (debugPathStr pp)
           && env.savedExists (debugPathStr pp)
      then some (debugPathStr pp) else none := by
  cases g with
  | false => rfl
  | true =>
    have h0 : (run_ocr_detection true env canvas pp).debugImagePath =
        match (generate_debug_image_with_text env canvas (env.detect canvas.base)
          (process_blocks env canvas.base 0 (env.detect canvas.base)).1 pp
          (["Found " ++ toString (env.detect canvas.base).length ++ " text blocks"]
            ++ (process_blocks env canvas.base 0 (env.detect canvas.base)).2
            ++ ["Final results: "
                  ++ toString (process_blocks env canvas.base 0 (env.detect canvas.base)).1.length
                  ++ " text blocks with extracted text"])).1 with
        | some q => if q = "" then none else some q
        | none => none := rfl
    rw [h0, gen_fst_eq]
    cases henv : env.genExcept with
    | some e => simp
    | none =>
      cases hw : env.imwrite (debugPathStr pp) <;>
        cases hx : env.savedExists (debugPathStr pp) <;>
          simp [debugPathStr_ne_empty pp]

/-- C5: the response carries `debugImagePath` exactly when the
`GENERATE_DEBUG_IMAGES` flag is set and the debug image was successfully
generated and saved (no exception, `cv2.imwrite` succeeded and the saved
file exists), in which case it is the `_debug`-suffixed path; in every
other case the field is absent and the request still succeeds. -/
theorem C5_debug_image_path_iff {Img : Type} (g : Bool) (env : Env Img)
    (canvas : Canvas Img) (pp : PathParts) (p : String) :
    ((run_ocr_detection g env canvas pp).debugImagePath = some p ↔
      g = true ∧ env.genExcept = none ∧ p = debugPathStr pp ∧
      env.imwrite (debugPathStr pp) = true ∧
      env.savedExists (debugPathStr pp) = true) ∧
    (run_ocr_detection g env canvas pp).success = true := by
  refine ⟨?_, run_success_eq g env canvas pp⟩
  rw [run_debugImagePath_eq]
  constructor
  · intro h
    by_cases hc : (g && env.genExcept.isNone && env.imwrite (debugPathStr pp)
        && env.savedExists (debugPathStr pp)) = true
    · rw [if_pos hc] at h
      injection h with h
      simp only [Bool.and_eq_true] at hc
      exact ⟨hc.1.1.1, Option.isNone_iff_eq_none.mp hc.1.1.2, h.symm, hc.1.2, hc.2⟩
    · rw [if_neg hc] at h
      cases h
  · rintro ⟨hg, hn, hp, hw, hx⟩
    have hc : (g && env.genExcept.isNone && env.imwrite (debugPathStr pp)
        && env.savedExists (debugPathStr pp)) = true := by
      simp [hg, hn, hw, hx]
    rw [if_pos hc, hp]

/-- C7: `initialize_models` is guarded and idempotent: it attempts to
load the detector and the OCR model only when at least one global slot
is unset (when both are set it returns immediately, independently of the
loaders, modifying neither slot), and once a call returns without an
exception every subsequent call leaves the state unchanged. -/
theorem C7_initialize_models_guard {D O : Type} (loadD : Except String D)
    (loadO : Except String O) (s : Models D O) :
    (s.text_detector.isSome = true → s.manga_ocr.isSome = true →
      initialize_models loadD loadO s = (s, none)) ∧
    (∀ (s1 : Models D O) (loadD2 : Except String D) (loadO2 : Except String O),
      initialize_models loadD loadO s = (s1, none) →
      initialize_models loadD2 loadO2 s1 = (s1, none)) := by
  constructor
  · intro hd ho
    obtain ⟨d, hd2⟩ := Option.isSome_iff_exists.mp hd
    obtain ⟨o, ho2⟩ := Option.isSome_iff_exists.mp ho
    simp [initialize_models, hd2, ho2]
  · intro s1 loadD2 loadO2 h
    by_cases hg : s.text_detector.isNone || s.manga_ocr.isNone
    · rw [initialize_models.eq_def, if_pos hg] at h
      cases loadD with
      | error e => simp at h
      | ok d =>
        cases loadO with
        | error e => simp at h
        | ok o =>
          simp only [Prod.mk.injEq] at h
          obtain ⟨h1, -⟩ := h
          rw [← h1]
          simp [initialize_models]
    · rw [initialize_models.eq_def, if_neg hg] at h
      simp only [Prod.mk.injEq] at h
      obtain ⟨h1, -⟩ := h
      rw [← h1]
      rw [initialize_models.eq_def, if_neg hg]

lemma block_ops_mem_all {Img : Type} (env : Env Img) :
    ∀ (k : Nat) (l : List (TextBlock × ResultBlk)) (i : Nat)
      (q : TextBlock × ResultBlk), l.get? i = some q →
      ∀ op ∈ block_ops env (k + i) q.1 q.2, op ∈ all_block_ops env k l
  | _, [], i, _, h => by simp at h
  | k, b :: rest, 0, q, h => by
    simp only [List.get?] at h
    cases h
    intro op hop
    simp only [all_block_ops, List.mem_append]
    exact Or.inl hop
  | k, b :: rest, i + 1, q, h => by
    simp only [List.get?] at h
    intro op hop
    simp only [all_block_ops, List.mem_append]
    right
    have harith : k + 1 + i = k + (i + 1) := by omega
    exact block_ops_mem_all env (k + 1) rest i q h op (by rw [harith]; exact hop)

lemma gen_canvas_eq {Img : Type} (env : Env Img) (canvas : Canvas Img)
    (bl : List TextBlock) (trs : List ResultBlk) (pp : PathParts)
    (d : List String) (hok : env.genExcept = none) :
    (generate_debug_image_with_text env canvas bl trs pp d).2.1 =
      { canvas with ops := canvas.ops ++ all_block_ops env 0 (bl.zip trs) } := by
  unfold generate_debug_image_with_text
  rw [hok]
  by_cases hb : env.imwrite (debugPathStr pp) && env.savedExists (debugPathStr pp)
  · simp [hb]
  · simp [hb]

/-- C6: with no exception raised, the debug image is an annotated copy of
the input image — same base pixels and dimensions, with the overlay
operations appended, the input canvas untouched — and for each detected
block i it carries the block's tight-bbox rectangle, the block index
label i+1, the recognized text truncated to 30 characters plus "..."
when longer (drawn only when the text is non-empty, with a background
rectangle drawn in no other case), and every per-line polygon outline. -/
theorem C6_debug_image_annotated_copy {Img : Type} (env : Env Img)
    (canvas : Canvas Img) (blk_list : List TextBlock)
    (text_results : List ResultBlk) (pp : PathParts) (d : List String)
    (i : Nat) (blk : TextBlock) (tr : ResultBlk) (a b c dq : ℚ)
    (hok : env.genExcept = none)
    (hz : (blk_list.zip text_results).get? i = some (blk, tr))
    (htb : calculate_tight_bbox_from_lines blk = (a, b, c, dq)) :
    (generate_debug_image_with_text env canvas blk_list text_results pp d).2.1.base
        = canvas.base ∧
    (generate_debug_image_with_text env canvas blk_list text_results pp d).2.1.width
        = canvas.width ∧
    (generate_debug_image_with_text env canvas blk_list text_results pp d).2.1.height
        = canvas.height ∧
    (generate_debug_image_with_text env canvas blk_list text_results pp d).2.1.ops
        = canvas.ops ++ all_block_ops env 0 (blk_list.zip text_results) ∧
    DrawOp.rect (pyInt a) (pyInt b) (pyInt c) (pyInt dq) (0, 255, 0) 3
        ∈ (generate_debug_image_with_text env canvas blk_list text_results pp d).2.1.ops ∧
    DrawOp.drawText (pyInt a) (max (pyInt b - 25) 5) (toString (i + 1)) (0, 255, 0)
        ∈ (generate_debug_image_with_text env canvas blk_list text_results pp d).2.1.ops ∧
    (tr.text ≠ "" →
      DrawOp.drawText (pyInt a)
          (if pyInt b > 50 then pyInt b - 50 else pyInt dq + 10)
          (pyTruncate tr.text 30) (255, 0, 0)
        ∈ (generate_debug_image_with_text env canvas blk_list text_results pp d).2.1.ops) ∧
    (tr.text.length > 30 → pyTruncate tr.text 30 = tr.text.take 30 ++ "...") ∧
    (¬ tr.text.length > 30 → pyTruncate tr.text 30 = tr.text) ∧
    (tr.text = "" → ∀ r1 r2 r3 r4 col,
      DrawOp.fillRect r1 r2 r3 r4 col ∉ block_ops env i blk tr) ∧
    (∀ line ∈ blk.lines,
      DrawOp.polyline (line.map (fun p => (pyInt p.1, pyInt p.2))) true (255, 165, 0) 2
        ∈ (generate_debug_image_with_text env canvas blk_list text_results pp d).2.1.ops) := by
  have hcv := gen_canvas_eq env canvas blk_list text_results pp d hok
  have hops : (generate_debug_image_with_text env canvas blk_list text_results pp d).2.1.ops
      = canvas.ops ++ all_block_ops env 0 (blk_list.zip text_results) := by
    rw [hcv]
  have hbo : ∀ op ∈ block_ops env i blk tr,
      op ∈ (generate_debug_image_with_text env canvas blk_list text_results pp d).2.1.ops := by
    intro op hop
    rw [hops]
    refine List.mem_append.mpr (Or.inr ?_)
    have hop2 : op ∈ block_ops env (0 + i) (blk, tr).1 (blk, tr).2 := by
      rw [Nat.zero_add]
      exact hop
    exact block_ops_mem_all env 0 (blk_list.zip text_results) i (blk, tr) hz op hop2
  refine ⟨by rw [hcv], by rw [hcv], by rw [hcv], hops, ?_, ?_, ?_, ?_, ?_, ?_, ?_⟩
  · apply hbo
    simp [block_ops, htb]
  · apply hbo
    simp [block_ops, htb]
  · intro htext
    apply hbo
    simp [block_ops, htb, htext]
  · intro hlen
    simp [pyTruncate, hlen]
  · intro hlen
    simp [pyTruncate, hlen]
  · intro htext r1 r2 r3 r4 col hmem
    simp [block_ops, htb, htext] at hmem
  · intro line hline
    apply hbo
    exact List.mem_append_right _ (List.mem_map.mpr ⟨line, hline, rfl⟩)

lemma run_debug_mem {Img : Type} (g : Bool) (env : Env Img) (canvas : Canvas Img)
    (pp : PathParts) (x : String)
    (hx : x ∈ (process_blocks env canvas.base 0 (env.detect canvas.base)).2) :
    x ∈ (run_ocr_detection g env canvas pp).debug := by
  have hmem : x ∈ (["Found " ++ toString (env.detect canvas.base).length ++ " text blocks"]
      ++ (process_blocks env canvas.base 0 (env.detect canvas.base)).2
      ++ ["Final results: "
            ++ toString (process_blocks env canvas.base 0 (env.detect canvas.base)).1.length
            ++ " text blocks with extracted text"]) := by
    simp only [List.append_assoc, List.mem_append]
    exact Or.inr (Or.inl hx)
  cases g with
  | false => exact hmem
  | true => exact gen_preserves_debug env canvas _ _ pp _ x hmem

/-- C9: when cropping or OCR raises an exception for one line of a
block, that line contributes the empty string to the block's
`text_lines`, a failure note is appended to the debug info, all other
lines of the block and all other blocks are still processed (the
per-line list keeps its full length and every detected block keeps its
entry), and the request still succeeds. -/
theorem C9_line_failure_isolated {Img : Type} (g : Bool) (env : Env Img)
    (canvas : Canvas Img) (pp : PathParts) (b j : Nat) (blk : TextBlock)
    (e : String)
    (hblk : (env.detect canvas.base).get? b = some blk)
    (hj : j < blk.lines.length)
    (hfail : env.get_transformed_region canvas.base j (fontSizeOr20 blk) = .error e ∨
      ∃ c, env.get_transformed_region canvas.base j (fontSizeOr20 blk) = .ok c ∧
        env.ocr (env.toPil (if blk.vertical then env.rotate90cw c else c)) = .error e) :
    ∃ rb, (run_ocr_detection g env canvas pp).textBlocks.get? b = some rb ∧
      rb.text_lines.get? j = some "" ∧
      rb.text_lines.length = blk.lines.length ∧
      lineFailNote b j e ∈ (run_ocr_detection g env canvas pp).debug ∧
      (run_ocr_detection g env canvas pp).textBlocks.length
        = (env.detect canvas.base).length ∧
      (run_ocr_detection g env canvas pp).success = true := by
  have hex : extract_line env canvas.base blk b j = ("", some (lineFailNote b j e)) := by
    rcases hfail with herr | ⟨c, hok2, herr⟩
    · simp [extract_line, herr]
    · simp [extract_line, hok2, herr]
  have hget := process_blocks_get env canvas.base 0 (env.detect canvas.base) b blk hblk
  rw [Nat.zero_add] at hget
  have htl : (process_block env canvas.base b blk).1.text_lines =
      (List.range blk.lines.length).map
        (fun jj => (extract_line env canvas.base blk b jj).1) := by
    simp only [process_block]
    exact process_lines_fst env canvas.base blk b (List.range blk.lines.length)
  rw [run_textBlocks_eq]
  refine ⟨(process_block env canvas.base b blk).1, hget, ?_, ?_, ?_, ?_,
    run_success_eq g env canvas pp⟩
  · rw [htl, List.get?_map, List.get?_range hj]
    simp [hex]
  · rw [htl]
    simp
  · have h2 : lineFailNote b j e ∈ (process_block env canvas.base b blk).2 := by
      simp only [process_block, List.mem_append]
      left
      refine process_lines_note_mem env canvas.base blk b
        (List.range blk.lines.length) j _ (List.mem_range.mpr hj) ?_
      rw [hex]
    have h3 : lineFailNote b j e ∈ (process_blocks env canvas.base 0 (env.detect canvas.base)).2 := by
      refine process_blocks_note_mem env canvas.base 0 (env.detect canvas.base) b blk _ hblk ?_
      rw [Nat.zero_add]
      exact h2
    exact run_debug_mem g env canvas pp _ h3
  · exact process_blocks_length env canvas.base 0 (env.detect canvas.base)


/-- A concrete vertical text block used for evaluating the embedding. -/
def blkA : TextBlock :=
  { lines := [[(1, 2), (5, 1)], [(3, 8)]]
    xyxy := (0, 0, 10, 10)
    vertical := true
    font_size := some 12 }

/-- A concrete horizontal text block. -/
def blkB : TextBlock :=
  { lines := [[(2, 3)]]
    xyxy := (0, 0, 4, 4)
    vertical := false
    font_size := none }

/-- A concrete block with no line polygons. -/
def blkEmpty : TextBlock :=
  { lines := []
    xyxy := (0, 0, 10, 10)
    vertical := false
    font_size := none }

/-- A concrete environment over `Nat` images where every call succeeds. -/
def envA : Env Nat :=
  { detect := fun _ => [blkA]
    get_transformed_region := fun _ _ _ => Except.ok 7
    rotate90cw := fun i => i + 100
    toPil := fun i => i + 1000
    ocr := fun i => Except.ok (toString i)
    textbbox := fun p _ => (p.1, p.2, p.1 + 10, p.2 + 10)
    imwrite := fun _ => true
    savedExists := fun _ => true
    genExcept := none }

/-- A concrete environment whose OCR model always raises. -/
def envFail : Env Nat :=
  { envA with ocr := fun _ => Except.error "boom" }

/-- A concrete input canvas. -/
def canvasA : Canvas Nat :=
  { base := 0, width := 100, height := 200, ops := [] }

/-- A concrete original-image path. -/
def ppA : PathParts :=
  { parent := "/tmp", stem := "page", suffix := ".jpg" }

/-- A concrete result block with non-empty text. -/
def trA : ResultBlk :=
  { bbox := [1, 1, 5, 8], width := 4, height := 7, vertical := true,
    font_size := some 12, lines := 2, confidence := 1,
    text := "hello", text_lines := ["hel", "lo"] }

/-- Witness for C1 at a concrete block with points (1,2), (5,1), (3,8). -/
theorem C1_tight_bbox_minmax_used_witness :
    ((envA.detect canvasA.base).get? 0 = some blkA ∧
     blkA.lines.flatten ≠ [] ∧
     calculate_tight_bbox_from_lines blkA = (1, 1, 5, 8)) ∧
    ((∀ p ∈ blkA.lines.flatten,
        (1 : ℚ) ≤ p.1 ∧ (1 : ℚ) ≤ p.2 ∧ p.1 ≤ 5 ∧ p.2 ≤ 8) ∧
     (1 : ℚ) ∈ blkA.lines.flatten.map Prod.fst ∧
     (1 : ℚ) ∈ blkA.lines.flatten.map Prod.snd ∧
     (5 : ℚ) ∈ blkA.lines.flatten.map Prod.fst ∧
     (8 : ℚ) ∈ blkA.lines.flatten.map Prod.snd ∧
     ∃ rb, (run_ocr_detection true envA canvasA ppA).textBlocks.get? 0 = some rb ∧
       rb.bbox = [pyInt 1, pyInt 1, pyInt 5, pyInt 8]) := by
  have h1 : (envA.detect canvasA.base).get? 0 = some blkA := rfl
  have h2 : blkA.lines.flatten ≠ [] := by decide
  have h3 : calculate_tight_bbox_from_lines blkA = (1, 1, 5, 8) := by decide
  exact ⟨⟨h1, h2, h3⟩,
    C1_tight_bbox_minmax_used true envA canvasA ppA 0 blkA 1 1 5 8 h1 h2 h3⟩

/-- Witness for C2 at the concrete two-line block. -/
theorem C2_line_loop_order_witness :
    (envA.detect canvasA.base).get? 0 = some blkA ∧
    (∃ rb, (run_ocr_detection true envA canvasA ppA).textBlocks.get? 0 = some rb ∧
      rb.text_lines = (List.range blkA.lines.length).map
        (fun j => (extract_line envA canvasA.base blkA 0 j).1) ∧
      rb.text = String.join rb.text_lines ∧
      rb.lines = blkA.lines.length) := by
  have h1 : (envA.detect canvasA.base).get? 0 = some blkA := rfl
  exact ⟨h1, C2_line_loop_order true envA canvasA ppA 0 blkA h1⟩

/-- Witness for C3 at a concrete successful crop of a vertical block. -/
theorem C3_vertical_rotation_witness :
    envA.get_transformed_region canvasA.base 0 (fontSizeOr20 blkA) = Except.ok 7 ∧
    ((blkA.vertical = true →
      extract_line envA canvasA.base blkA 0 0 =
        match envA.ocr (envA.toPil (envA.rotate90cw 7)) with
        | Except.ok t => (t, none)
        | Except.error e => ("", some (lineFailNote 0 0 e))) ∧
    (blkA.vertical = false →
      extract_line envA canvasA.base blkA 0 0 =
        match envA.ocr (envA.toPil 7) with
        | Except.ok t => (t, none)
        | Except.error e => ("", some (lineFailNote 0 0 e)))) := by
  have h1 : envA.get_transformed_region canvasA.base 0 (fontSizeOr20 blkA) = Except.ok 7 := rfl
  exact ⟨h1, C3_vertical_rotation envA canvasA.base blkA 0 0 7 h1⟩

/-- Witness for C4 at the concrete environment. -/
theorem C4_response_shape_witness :
    (run_ocr_detection true envA canvasA ppA).success = true ∧
    (run_ocr_detection true envA canvasA ppA).imageSize = (canvasA.width, canvasA.height) ∧
    (run_ocr_detection true envA canvasA ppA).textBlocks.length
      = (envA.detect canvasA.base).length ∧
    ∀ i blk, (envA.detect canvasA.base).get? i = some blk →
      ∃ rb, (run_ocr_detection true envA canvasA ppA).textBlocks.get? i = some rb ∧
        rb.bbox = [pyInt (calculate_tight_bbox_from_lines blk).1,
                   pyInt (calculate_tight_bbox_from_lines blk).2.1,
                   pyInt (calculate_tight_bbox_from_lines blk).2.2.1,
                   pyInt (calculate_tight_bbox_from_lines blk).2.2.2] ∧
        rb.vertical = blk.vertical ∧
        rb.font_size = blk.font_size ∧
        rb.lines = blk.lines.length ∧
        rb.text = String.join rb.text_lines :=
  C4_response_shape true envA canvasA ppA

/-- Witness for C5 at the concrete environment and path. -/
theorem C5_debug_image_path_iff_witness :
    ((run_ocr_detection true envA canvasA ppA).debugImagePath
        = some "/tmp/page_debug.jpg" ↔
      true = true ∧ envA.genExcept = none ∧
      "/tmp/page_debug.jpg" = debugPathStr ppA ∧
      envA.imwrite (debugPathStr ppA) = true ∧
      envA.savedExists (debugPathStr ppA) = true) ∧
    (run_ocr_detection true envA canvasA ppA).success = true :=
  C5_debug_image_path_iff true envA canvasA ppA "/tmp/page_debug.jpg"

/-- Witness for C6 at the concrete block, result and canvas. -/
theorem C6_debug_image_annotated_copy_witness :
    (envA.genExcept = none ∧
     (([blkA].zip [trA]).get? 0 = some (blkA, trA)) ∧
     calculate_tight_bbox_from_lines blkA = (1, 1, 5, 8)) ∧
    ((generate_debug_image_with_text envA canvasA [blkA] [trA] ppA []).2.1.base
        = canvasA.base ∧
     (generate_debug_image_with_text envA canvasA [blkA] [trA] ppA []).2.1.width
        = canvasA.width ∧
     (generate_debug_image_with_text envA canvasA [blkA] [trA] ppA []).2.1.height
        = canvasA.height ∧
     (generate_debug_image_with_text envA canvasA [blkA] [trA] ppA []).2.1.ops
        = canvasA.ops ++ all_block_ops envA 0 ([blkA].zip [trA]) ∧
     DrawOp.rect (pyInt 1) (pyInt 1) (pyInt 5) (pyInt 8) (0, 255, 0) 3
        ∈ (generate_debug_image_with_text envA canvasA [blkA] [trA] ppA []).2.1.ops ∧
     DrawOp.drawText (pyInt 1) (max (pyInt 1 - 25) 5) (toString (0 + 1)) (0, 255, 0)
        ∈ (generate_debug_image_with_text envA canvasA [blkA] [trA] ppA []).2.1.ops ∧
     (trA.text ≠ "" →
       DrawOp.drawText (pyInt 1)
           (if pyInt 1 > 50 then pyInt 1 - 50 else pyInt 8 + 10)
           (pyTruncate trA.text 30) (255, 0, 0)
         ∈ (generate_debug_image_with_text envA canvasA [blkA] [trA] ppA []).2.1.ops) ∧
     (trA.text.length > 30 → pyTruncate trA.text 30 = trA.text.take 30 ++ "...") ∧
     (¬ trA.text.length > 30 → pyTruncate trA.text 30 = trA.text) ∧
     (trA.text = "" → ∀ r1 r2 r3 r4 col,
       DrawOp.fillRect r1 r2 r3 r4 col ∉ block_ops envA 0 blkA trA) ∧
     (∀ line ∈ blkA.lines,
       DrawOp.polyline (line.map (fun p => (pyInt p.1, pyInt p.2))) true (255, 165, 0) 2
         ∈ (generate_debug_image_with_text envA canvasA [blkA] [trA] ppA []).2.1.ops)) := by
  have h1 : envA.genExcept = none := rfl
  have h2 : ([blkA].zip [trA]).get? 0 = some (blkA, trA) := rfl
  have h3 : calculate_tight_bbox_from_lines blkA = (1, 1, 5, 8) := by decide
  exact ⟨⟨h1, h2, h3⟩,
    C6_debug_image_annotated_copy envA canvasA [blkA] [trA] ppA [] 0 blkA trA
      1 1 5 8 h1 h2 h3⟩

/-- Witness for C7 at concrete loaders and a fully-initialized state. -/
theorem C7_initialize_models_guard_witness :
    (((⟨some 3, some 4⟩ : Models Nat Nat).text_detector.isSome = true →
      (⟨some 3, some 4⟩ : Models Nat Nat).manga_ocr.isSome = true →
      initialize_models (Except.ok 1) (Except.ok 2) (⟨some 3, some 4⟩ : Models Nat Nat)
        = (⟨some 3, some 4⟩, none)) ∧
    (∀ (s1 : Models Nat Nat) (loadD2 : Except String Nat) (loadO2 : Except String Nat),
      initialize_models (Except.ok 1) (Except.ok 2) (⟨some 3, some 4⟩ : Models Nat Nat)
        = (s1, none) →
      initialize_models loadD2 loadO2 s1 = (s1, none))) :=
  C7_initialize_models_guard (Except.ok 1) (Except.ok 2) ⟨some 3, some 4⟩

/-- Witness for C8 at a concrete block with no line polygons. -/
theorem C8_bbox_fallback_witness :
    (blkEmpty.lines = [] ∨ blkEmpty.lines.flatten = []) ∧
    calculate_tight_bbox_from_lines blkEmpty = blkEmpty.xyxy :=
  ⟨Or.inl rfl, C8_bbox_fallback blkEmpty (Or.inl rfl)⟩

/-- Witness for C9 at a concrete environment whose OCR raises. -/
theorem C9_line_failure_isolated_witness :
    ((envFail.detect canvasA.base).get? 0 = some blkA ∧
     0 < blkA.lines.length ∧
     (envFail.get_transformed_region canvasA.base 0 (fontSizeOr20 blkA)
        = Except.error "boom" ∨
      ∃ c, envFail.get_transformed_region canvasA.base 0 (fontSizeOr20 blkA)
        = Except.ok c ∧
        envFail.ocr (envFail.toPil
          (if blkA.vertical then envFail.rotate90cw c else c))
        = Except.error "boom")) ∧
    (∃ rb, (run_ocr_detection true envFail canvasA ppA).textBlocks.get? 0 = some rb ∧
      rb.text_lines.get? 0 = some "" ∧
      rb.text_lines.length = blkA.lines.length ∧
      lineFailNote 0 0 "boom" ∈ (run_ocr_detection true envFail canvasA ppA).debug ∧
      (run_ocr_detection true envFail canvasA ppA).textBlocks.length
        = (envFail.detect canvasA.base).length ∧
      (run_ocr_detection true envFail canvasA ppA).success = true) := by
  have h1 : (envFail.detect canvasA.base).get? 0 = some blkA := rfl
  have h2 : 0 < blkA.lines.length := by decide
  have h3 : envFail.get_transformed_region canvasA.base 0 (fontSizeOr20 blkA)
      = Except.error "boom" ∨
      ∃ c, envFail.get_transformed_region canvasA.base 0 (fontSizeOr20 blkA)
        = Except.ok c ∧
        envFail.ocr (envFail.toPil
          (if blkA.vertical then envFail.rotate90cw c else c))
        = Except.error "boom" :=
    Or.inr ⟨7, rfl, rfl⟩
  exact ⟨⟨h1, h2, h3⟩,
    C9_line_failure_isolated true envFail canvasA ppA 0 0 blkA "boom" h1 h2 h3⟩

/-- Witness for C10 at the concrete block. -/
theorem C10_width_height_confidence_witness :
    (envA.detect canvasA.base).get? 0 = some blkA ∧
    (∃ rb x1 y1 x2 y2,
      (run_ocr_detection true envA canvasA ppA).textBlocks.get? 0 = some rb ∧
      rb.bbox = [x1, y1, x2, y2] ∧
      rb.width = x2 - x1 ∧
      rb.height = y2 - y1 ∧
      rb.confidence = 1 ∧
      (blkA.lines.flatten ≠ [] → 0 ≤ rb.width ∧ 0 ≤ rb.height)) := by
  have h1 : (envA.detect canvasA.base).get? 0 = some blkA := rfl
  exact ⟨h1, C10_width_height_confidence true envA canvasA ppA 0 blkA h1⟩

end Komu
